import Mathlib

/-!
Shallow embedding of the authentication core of the repository:
the `AuthContext` engine (login, signup, logout, startup session load)
over a local persisted account collection and a single session slot,
plus the signup form's field validator.

Persistence (`AsyncStorage`) is modelled as explicit state: the account
collection (key `@auth_users`) as a list of `StoredUser`, the session
slot (key `@auth_user`) as an `Option User`.  Storage faults are
injected as explicit boolean parameters: a `true` flag means the
corresponding storage read or write throws, and the embedding then
follows the source's `try`/`catch` structure.
-/

/-- Character class of the source's email regex parts: `[^\s@]`,
a character that is neither whitespace nor `@`. -/
def isEmailChar (c : Char) : Bool := !c.isWhitespace && c != '@'

/-- Executable acceptance test for the source regex
`^[^\s@]+@[^\s@]+\.[^\s@]+$`: the character list decomposes at some
positions `i < j` into a nonempty `[^\s@]+` block, the `@` at `i`, a
nonempty block, the `.` at `j`, and a nonempty tail block. -/
def emailRegexAccepts (l : List Char) : Bool :=
  (List.range l.length).any fun i =>
    (List.range l.length).any fun j =>
      decide (1 ≤ i) && decide (i + 2 ≤ j) && decide (j + 2 ≤ l.length) &&
      (l.getD i ' ' == '@') && (l.getD j ' ' == '.') &&
      (l.take i).all isEmailChar &&
      ((l.drop (i + 1)).take (j - (i + 1))).all isEmailChar &&
      (l.drop (j + 1)).all isEmailChar

/-- Declarative reading of the email pattern, in the words of the spec:
one or more characters that are neither whitespace nor `@`, then `@`,
then one or more such characters, then `.`, then one or more such
characters. -/
def EmailShape (l : List Char) : Prop :=
  ∃ A B C : List Char,
    l = A ++ '@' :: (B ++ '.' :: C) ∧
    A ≠ [] ∧ B ≠ [] ∧ C ≠ [] ∧
    (∀ c ∈ A, isEmailChar c) ∧ (∀ c ∈ B, isEmailChar c) ∧
    (∀ c ∈ C, isEmailChar c)

/-- Embedding of JavaScript's `String.prototype.trim`: drop leading and
trailing whitespace characters. -/
def jsTrim (s : String) : String :=
  ⟨((s.data.dropWhile Char.isWhitespace).reverse.dropWhile Char.isWhitespace).reverse⟩

/-- Form fields validated by the signup screen's `validateField`. -/
inductive FormField
  | name
  | email
  | password
  | confirmPassword
deriving DecidableEq

/-- Embedding of the signup screen's `validateField(field, value)`.
The `pw` argument is the current password in the form state, which the
source closure reads for the `confirmPassword` rule.  JavaScript's
`!value` test on a string is `value = ""`, and `!value.trim()` is
`jsTrim value = ""`. -/
def validateField (pw : String) (field : FormField) (value : String) : Option String :=
  match field with
  | .name =>
    if jsTrim value = "" then some "Name is required"
    else if (jsTrim value).length < 2 then some "Name must be at least 2 characters"
    else none
  | .email =>
    if jsTrim value = "" then some "Email is required"
    else if !emailRegexAccepts value.data then some "Email address is incomplete"
    else none
  | .password =>
    if value = "" then some "Password is required"
    else if value.length < 6 then some "Password must be at least 6 characters"
    else none
  | .confirmPassword =>
    if value = "" then some "Please confirm your password"
    else if value ≠ pw then some "Passwords do not match"
    else none

/-- Persisted account record (`StoredUser` in the source): name,
email, cleartext password and id. -/
structure StoredUser where
  name : String
  email : String
  password : String
  id : String
deriving DecidableEq, Repr

/-- Session user (`User` in the source): an account projected without
its password. -/
structure User where
  name : String
  email : String
  id : String
deriving DecidableEq, Repr

/-- Result object returned by every mutating auth operation
(`AuthResult` in the source). -/
structure AuthResult where
  success : Bool
  error : Option String
deriving DecidableEq, Repr

/-- Persisted and in-memory auth state: the account collection stored
under `@auth_users`, the persisted session slot under `@auth_user`,
and the in-memory `user` React state. -/
structure AuthState where
  users : List StoredUser
  slot : Option User
  user : Option User
deriving DecidableEq, Repr

/-- State at first use: nothing stored, nobody logged in. -/
def emptyState : AuthState := ⟨[], none, none⟩

/-- Embedding of JavaScript's `String.prototype.toLowerCase`,
restricted to ASCII letters as Lean's `Char.toLower` is. -/
def jsToLowerCase (s : String) : String := ⟨s.data.map Char.toLower⟩

/-- Fault injection for `login`: `readUsers` makes the
`AsyncStorage.getItem(USERS_STORAGE_KEY)` read throw (caught inside
`getStoredUsers`, which then returns `[]`); `writeSession` makes the
`AsyncStorage.setItem(AUTH_STORAGE_KEY)` write throw (caught by the
outer handler). -/
structure LoginFaults where
  readUsers : Bool
  writeSession : Bool
deriving DecidableEq

/-- Fault-free execution of `login`. -/
def noLoginFaults : LoginFaults := ⟨false, false⟩

/-- Embedding of `getStoredUsers`: a read fault (or a parse fault) is
caught and yields the empty list. -/
def getStoredUsers (readFault : Bool) (st : AuthState) : List StoredUser :=
  if readFault then [] else st.users

/-- Embedding of `login({email, password})` from `AuthContext`.
Returns the `AuthResult` and the state after the call. -/
def login (f : LoginFaults) (email password : String) (st : AuthState) :
    AuthResult × AuthState :=
  if email = "" ∨ password = "" then
    (⟨false, some "Email and password are required"⟩, st)
  else
    let users := getStoredUsers f.readUsers st
    match users.find? fun u =>
        jsToLowerCase u.email == jsToLowerCase email && u.password == password with
    | none => (⟨false, some "Invalid email or password"⟩, st)
    | some foundUser =>
      let loggedInUser : User := ⟨foundUser.name, foundUser.email, foundUser.id⟩
      if f.writeSession then
        (⟨false, some "An unexpected error occurred during login"⟩,
          { st with user := some loggedInUser })
      else
        (⟨true, none⟩, { st with user := some loggedInUser, slot := some loggedInUser })

/-- Fault injection for `signup`: `readUsers` as in `login`;
`writeUsers` makes the `AsyncStorage.setItem(USERS_STORAGE_KEY)` write
inside `saveStoredUsers` throw (caught and swallowed there — only
logged); `writeSession` makes the session-slot write throw (caught by
the outer handler). -/
structure SignupFaults where
  readUsers : Bool
  writeUsers : Bool
  writeSession : Bool
deriving DecidableEq

/-- Fault-free execution of `signup`. -/
def noSignupFaults : SignupFaults := ⟨false, false, false⟩

/-- Embedding of `signup({name, email, password})` from `AuthContext`.
The fresh account id (`Date.now().toString()` in the source) enters as
the oracle argument `newId`.  When the `saveStoredUsers` write faults,
the persisted collection keeps its old value and execution continues,
because `saveStoredUsers` catches the fault without rethrowing. -/
def signup (f : SignupFaults) (newId name email password : String)
    (st : AuthState) : AuthResult × AuthState :=
  if name = "" ∨ email = "" ∨ password = "" then
    (⟨false, some "Name, email, and password are required"⟩, st)
  else if !emailRegexAccepts email.data then
    (⟨false, some "Invalid email format"⟩, st)
  else if password.length < 6 then
    (⟨false, some "Password must be at least 6 characters"⟩, st)
  else
    let users := getStoredUsers f.readUsers st
    match users.find? fun u => jsToLowerCase u.email == jsToLowerCase email with
    | some _ => (⟨false, some "User with this email already exists"⟩, st)
    | none =>
      let newUser : StoredUser := ⟨name, email, password, newId⟩
      let users1 := if f.writeUsers then st.users else users ++ [newUser]
      let loggedInUser : User := ⟨name, email, newId⟩
      if f.writeSession then
        (⟨false, some "An unexpected error occurred during signup"⟩,
          { st with users := users1, user := some loggedInUser })
      else
        (⟨true, none⟩, ⟨users1, some loggedInUser, some loggedInUser⟩)

/-- Embedding of `logout()` from `AuthContext`: `setUser(null)` runs
before the `AsyncStorage.removeItem` call, so the in-memory user is
cleared even when the removal faults (`clearFault = true`), in which
case the persisted slot keeps its old value and a failed result is
returned. -/
def logout (clearFault : Bool) (st : AuthState) : AuthResult × AuthState :=
  if clearFault then
    (⟨false, some "An unexpected error occurred during logout"⟩,
      { st with user := none })
  else
    (⟨true, none⟩, { st with user := none, slot := none })

/-- Outcome of reading the persisted session slot at startup: the slot
is absent, holds a session user, or the read/parse throws. -/
inductive SessionRead
  | absent
  | value (u : User)
  | fault
deriving DecidableEq

/-- Observable outcome of startup (`loadUser` in the source): the
in-memory user it sets, the final `isLoading` flag, and the error it
surfaces to callers (always none — the `catch` only logs). -/
structure LoadOutcome where
  user : Option User
  isLoading : Bool
  surfacedError : Option String
deriving DecidableEq, Repr

/-- Embedding of `loadUser`: a present slot sets the user; an absent
slot or a read/deserialization fault leaves the user unset; the
`finally` clause clears `isLoading` in every case, and no error is
surfaced. -/
def loadUser : SessionRead → LoadOutcome
  | .absent => ⟨none, false, none⟩
  | .value u => ⟨some u, false, none⟩
  | .fault => ⟨none, false, none⟩

/-- Single signup request, as fed to the engine by the UI: id oracle
plus the three form fields. -/
structure SignupCall where
  newId : String
  name : String
  email : String
  password : String

/-- Fault-free sequential execution of a list of signup calls from the
empty store. -/
def runSignups (calls : List SignupCall) : AuthState :=
  calls.foldl
    (fun st c => (signup noSignupFaults c.newId c.name c.email c.password st).2)
    emptyState

/-- Matching predicate used by `login`: case-insensitively equal email
and exactly equal password. -/
def matchesCred (email password : String) (u : StoredUser) : Prop :=
  jsToLowerCase u.email = jsToLowerCase email ∧ u.password = password

/-- Pairwise case-insensitive distinctness of the stored emails. -/
def UniqueEmails (l : List StoredUser) : Prop :=
  l.Pairwise fun u v => jsToLowerCase u.email ≠ jsToLowerCase v.email

example : emailRegexAccepts "a@b.c".data = true := by decide
example : emailRegexAccepts "john@example.com".data = true := by decide
example : emailRegexAccepts "a@b".data = false := by decide
example : emailRegexAccepts "@b.c".data = false := by decide
example : emailRegexAccepts "a@.c".data = false := by decide
example : emailRegexAccepts "a@b.".data = false := by decide
example : emailRegexAccepts "a b@c.d".data = false := by decide
example : emailRegexAccepts "a@@b.c".data = false := by decide
example : emailRegexAccepts "a@.a.b".data = true := by decide
example : validateField "" .password "12345" = some "Password must be at least 6 characters" := by decide
example : validateField "" .password "123456" = none := by decide
example : validateField "" .email "  " = some "Email is required" := by decide
example : validateField "" .email "nope" = some "Email address is incomplete" := by decide
example : validateField "" .email "a@b.c" = none := by decide
example :
    (signup noSignupFaults "1" "Alice" "a@b.com" "secret1" emptyState).1 =
      ⟨true, none⟩ := by decide
example :
    (signup noSignupFaults "2" "Bob" "A@B.com"
        "secret2" (signup noSignupFaults "1" "Alice" "a@b.com" "secret1" emptyState).2).1 =
      ⟨false, some "User with this email already exists"⟩ := by decide
example :
    (login noLoginFaults "x@y.com" "wrong" emptyState).1 =
      ⟨false, some "Invalid email or password"⟩ := by decide
example :
    (signup ⟨false, true, false⟩ "1" "John Doe" "john@example.com"
        "password123" emptyState).1 = ⟨true, none⟩ := by decide

/-- C5: startup loads the session slot once; a stored Session User
yields the authenticated user without a login call, an absent slot or
a read/deserialization fault yields no user with no surfaced error,
and the loading flag ends false in every case.  The once-per-process
scheduling of this call is the `useEffect(..., [])` mount hook of the
source, modelled here as the single `loadUser` invocation at startup. -/
theorem loadUser_startup_resolution :
    (∀ u : User, loadUser (.value u) = ⟨some u, false, none⟩) ∧
    loadUser .absent = ⟨none, false, none⟩ ∧
    loadUser .fault = ⟨none, false, none⟩ ∧
    (∀ r : SessionRead, (loadUser r).isLoading = false ∧
      (loadUser r).surfacedError = none) := by
  refine ⟨fun u => rfl, rfl, rfl, fun r => ?_⟩
  cases r <;> exact ⟨rfl, rfl⟩

/-- C8: two consecutive fault-free `logout` calls both return success,
and after the second one neither an in-memory user nor a persisted
session slot remains. -/
theorem logout_twice_idempotent (st : AuthState) :
    (logout false st).1 = ⟨true, none⟩ ∧
    (logout false (logout false st).2).1 = ⟨true, none⟩ ∧
    (logout false (logout false st).2).2.user = none ∧
    (logout false (logout false st).2).2.slot = none := by
  simp [logout]

/-- C9: `logout` clears the in-memory user before attempting the
persisted-slot removal, so the user is `none` after every call, even
one whose removal faults and which therefore returns a failed result
(leaving the persisted slot as it was). -/
theorem logout_clears_user_even_on_fault (st : AuthState) (clearFault : Bool) :
    (logout clearFault st).2.user = none ∧
    (logout true st).1 = ⟨false, some "An unexpected error occurred during logout"⟩ ∧
    (logout true st).2.user = none ∧
    (logout true st).2.slot = st.slot := by
  cases clearFault <;> simp [logout]

/-- C10: `login` never modifies the stored account collection,
whatever its inputs, its faults, and its outcome. -/
theorem login_preserves_stored_users (f : LoginFaults) (email password : String)
    (st : AuthState) :
    (login f email password st).2.users = st.users := by
  by_cases h : email = "" ∨ password = ""
  · simp [login, h]
  · cases hm : (getStoredUsers f.readUsers st).find?
        (fun u => jsToLowerCase u.email == jsToLowerCase email && u.password == password) with
    | none => simp [login, h, hm]
    | some fu => by_cases hw : f.writeSession = true <;> simp [login, h, hm, hw]

/-- C1 counterexample: with valid inputs on an empty store, a storage
fault in the account-collection write (`saveStoredUsers`) still yields
`success:true`, because `saveStoredUsers` catches the fault and only
logs it; the new account is silently left unpersisted. -/
theorem signup_usersWriteFault_cex :
    ((signup ⟨false, true, false⟩ "1700000000000" "John Doe" "john@example.com"
        "password123" emptyState).1).success = true ∧
    (signup ⟨false, true, false⟩ "1700000000000" "John Doe" "john@example.com"
        "password123" emptyState).2.users = [] := by
  exact ⟨by decide, by decide⟩

/-- C1 amended: for every signup passing the input checks and the
duplicate check, a storage fault in the account-collection write is
swallowed — signup still returns `success:true` and the persisted
collection is unchanged; only a fault of the session-slot write is
surfaced as a failed result. -/
theorem signup_usersWriteFault_swallowed (newId name email password : String)
    (st : AuthState)
    (hname : name ≠ "") (hemail : email ≠ "") (hpw : password ≠ "")
    (hfmt : emailRegexAccepts email.data = true)
    (hlen : ¬ password.length < 6)
    (hdup : ∀ u ∈ st.users, jsToLowerCase u.email ≠ jsToLowerCase email) :
    (signup ⟨false, true, false⟩ newId name email password st).1 = ⟨true, none⟩ ∧
    (signup ⟨false, true, false⟩ newId name email password st).2.users = st.users ∧
    (signup ⟨false, true, true⟩ newId name email password st).1 =
      ⟨false, some "An unexpected error occurred during signup"⟩ := by
  have hcond : ¬(name = "" ∨ email = "" ∨ password = "") := by tauto
  have hfind : st.users.find? (fun u => jsToLowerCase u.email == jsToLowerCase email)
      = none :=
    List.find?_eq_none.2 fun u hu => by simpa using hdup u hu
  refine ⟨?_, ?_, ?_⟩ <;>
    simp [signup, hcond, hfmt, hlen, getStoredUsers, hfind]

/-- C1 witness: the amended statement instantiated on the empty store
with concrete valid signup data. -/
theorem signup_usersWriteFault_swallowed_witness :
    (signup ⟨false, true, false⟩ "1700000000000" "Jane Doe" "jane@example.com"
        "password123" emptyState).1 = ⟨true, none⟩ ∧
    (signup ⟨false, true, false⟩ "1700000000000" "Jane Doe" "jane@example.com"
        "password123" emptyState).2.users = emptyState.users ∧
    (signup ⟨false, true, true⟩ "1700000000000" "Jane Doe" "jane@example.com"
        "password123" emptyState).1 =
      ⟨false, some "An unexpected error occurred during signup"⟩ :=
  signup_usersWriteFault_swallowed "1700000000000" "Jane Doe" "jane@example.com"
    "password123" emptyState (by decide) (by decide) (by decide) (by decide)
    (by decide) (by intro u hu; simp [emptyState] at hu)

/-- C7: `validateField` on the password field demands a nonempty value
("Password is required"), then length at least six ("Password must be
at least 6 characters"), and accepts exactly the values of length at
least six; `"12345"` errors and `"123456"` does not. -/
theorem validateField_password_characterization (pw v : String) :
    (validateField pw .password v = some "Password is required" ↔ v = "") ∧
    (validateField pw .password v = some "Password must be at least 6 characters" ↔
      v ≠ "" ∧ v.length < 6) ∧
    (validateField pw .password v = none ↔ 6 ≤ v.length) ∧
    (validateField pw .password "12345").isSome = true ∧
    validateField pw .password "123456" = none := by
  refine ⟨?_, ?_, ?_, rfl, rfl⟩
  · by_cases hv : v = ""
    · subst hv; simp [validateField]
    · by_cases hl : v.length < 6 <;> simp [validateField, hv, hl]
  · by_cases hv : v = ""
    · subst hv; simp [validateField]
    · by_cases hl : v.length < 6 <;> simp [validateField, hv, hl]
  · by_cases hv : v = ""
    · subst hv
      simp only [validateField, if_pos rfl]
      constructor
      · intro h; exact absurd h (by simp)
      · intro h; exact absurd h (by decide)
    · by_cases hl : v.length < 6
      · simp only [validateField, if_neg hv, if_pos hl]
        constructor
        · intro h; exact absurd h (by simp)
        · intro h; omega
      · simp [validateField, hv, hl]; omega

/-- C3: fault-free `login` fails with an error when either field is
empty; with both nonempty it fails with "Invalid email or password"
and leaves the state unchanged when no stored account matches the
credentials case-insensitively on email and exactly on password; and
when a matching account exists it succeeds and sets the in-memory user
to that account with the password field removed. -/
theorem login_contract (email password : String) (st : AuthState) :
    ((email = "" ∨ password = "") →
      (login noLoginFaults email password st).1.success = false ∧
      ((login noLoginFaults email password st).1.error).isSome = true) ∧
    (¬(email = "" ∨ password = "") →
      (∀ u ∈ st.users, ¬ matchesCred email password u) →
      login noLoginFaults email password st =
        (⟨false, some "Invalid email or password"⟩, st)) ∧
    (¬(email = "" ∨ password = "") →
      (∃ u ∈ st.users, matchesCred email password u) →
      (login noLoginFaults email password st).1 = ⟨true, none⟩ ∧
      ∃ u ∈ st.users, matchesCred email password u ∧
        (login noLoginFaults email password st).2.user =
          some ⟨u.name, u.email, u.id⟩) := by
  refine ⟨?_, ?_, ?_⟩
  · intro h
    simp [login, h]
  · intro h hnone
    have hfind : st.users.find?
        (fun u => jsToLowerCase u.email == jsToLowerCase email &&
          u.password == password) = none :=
      List.find?_eq_none.2 fun u hu => by
        simpa [matchesCred] using hnone u hu
    simp [login, h, noLoginFaults, getStoredUsers, hfind]
  · intro h hex
    have hsome : (st.users.find?
        (fun u => jsToLowerCase u.email == jsToLowerCase email &&
          u.password == password)).isSome := by
      rw [List.find?_isSome]
      obtain ⟨u, hu, hm⟩ := hex
      exact ⟨u, hu, by simpa [matchesCred] using hm⟩
    obtain ⟨fu, hfu⟩ := Option.isSome_iff_exists.1 hsome
    have hmem : fu ∈ st.users := List.mem_of_find?_eq_some hfu
    have hpred := List.find?_some hfu
    refine ⟨by simp [login, h, noLoginFaults, getStoredUsers, hfu], fu, hmem, ?_, ?_⟩
    · simpa [matchesCred] using hpred
    · simp [login, h, noLoginFaults, getStoredUsers, hfu]

/-- C3 witness: the negative case of the contract at a concrete input,
a login with no matching account on the empty store. -/
theorem login_contract_witness :
    login noLoginFaults "x@y.com" "wrong" emptyState =
      (⟨false, some "Invalid email or password"⟩, emptyState) :=
  (login_contract "x@y.com" "wrong" emptyState).2.1 (by simp)
    (fun u hu => by simp [emptyState] at hu)

/-- Helper: one fault-free `signup` step preserves pairwise
case-insensitive distinctness of the stored emails — an account is
appended only after the duplicate lookup over the freshly read
collection comes back empty. -/
theorem signup_preserves_uniqueEmails (newId name email password : String)
    (st : AuthState) (h : UniqueEmails st.users) :
    UniqueEmails (signup noSignupFaults newId name email password st).2.users := by
  by_cases h1 : name = "" ∨ email = "" ∨ password = ""
  · simpa [signup, h1] using h
  · by_cases h2 : emailRegexAccepts email.data
    · by_cases h3 : password.length < 6
      · simpa [signup, h1, h2, h3] using h
      · cases hfind : st.users.find?
            (fun u => jsToLowerCase u.email == jsToLowerCase email) with
        | some u => simpa [signup, h1, h2, h3, noSignupFaults, getStoredUsers, hfind] using h
        | none =>
          have hall : ∀ u ∈ st.users, jsToLowerCase u.email ≠ jsToLowerCase email :=
            fun u hu => by simpa using List.find?_eq_none.1 hfind u hu
          have : UniqueEmails (st.users ++ [⟨name, email, password, newId⟩]) := by
            rw [UniqueEmails, List.pairwise_append]
            exact ⟨h, List.pairwise_singleton _ _,
              fun u hu v hv => by
                rw [List.mem_singleton] at hv
                subst hv
                exact hall u hu⟩
          simpa [signup, h1, h2, h3, noSignupFaults, getStoredUsers, hfind] using this
    · simpa [signup, h1, h2] using h

/-- Helper: folding fault-free signups preserves the email-uniqueness
invariant. -/
theorem runSignups_fold_unique (calls : List SignupCall) (st : AuthState)
    (h : UniqueEmails st.users) :
    UniqueEmails ((calls.foldl
      (fun st c => (signup noSignupFaults c.newId c.name c.email c.password st).2)
      st).users) := by
  induction calls generalizing st with
  | nil => exact h
  | cons c cs ih =>
    exact ih _ (signup_preserves_uniqueEmails c.newId c.name c.email c.password st h)

/-- C2: every sequence of fault-free signups from the empty store
keeps the stored emails pairwise case-insensitively distinct; in
particular a signup with `A@B.com` after a successful one with
`a@b.com` fails with "User with this email already exists" and leaves
the store untouched. -/
theorem signup_email_uniqueness (calls : List SignupCall) :
    UniqueEmails (runSignups calls).users ∧
    (signup noSignupFaults "1" "Alice" "a@b.com" "secret01" emptyState).1 =
      ⟨true, none⟩ ∧
    signup noSignupFaults "2" "Bob" "A@B.com" "secret02"
        (signup noSignupFaults "1" "Alice" "a@b.com" "secret01" emptyState).2 =
      (⟨false, some "User with this email already exists"⟩,
        (signup noSignupFaults "1" "Alice" "a@b.com" "secret01" emptyState).2) := by
  refine ⟨?_, by decide, by decide⟩
  exact runSignups_fold_unique calls emptyState (by simp [emptyState, UniqueEmails])

/-- C4: on the empty store, signup of John Doe succeeds and logs him
in with his name and email; after a logout, a login with the same
credentials succeeds and restores a session user with the same id,
name, and email, whatever id the signup generated. -/
theorem signup_logout_login_roundtrip (newId : String) :
    (signup noSignupFaults newId "John Doe" "john@example.com" "password123"
      emptyState).1 = ⟨true, none⟩ ∧
    (signup noSignupFaults newId "John Doe" "john@example.com" "password123"
      emptyState).2.user = some ⟨"John Doe", "john@example.com", newId⟩ ∧
    (logout false (signup noSignupFaults newId "John Doe" "john@example.com"
      "password123" emptyState).2).1 = ⟨true, none⟩ ∧
    (login noLoginFaults "john@example.com" "password123"
      (logout false (signup noSignupFaults newId "John Doe" "john@example.com"
        "password123" emptyState).2).2).1 = ⟨true, none⟩ ∧
    (login noLoginFaults "john@example.com" "password123"
      (logout false (signup noSignupFaults newId "John Doe" "john@example.com"
        "password123" emptyState).2).2).2.user =
      some ⟨"John Doe", "john@example.com", newId⟩ := by
  exact ⟨rfl, rfl, rfl, rfl, rfl⟩

/-- Helper: the executable regex acceptance test recognizes exactly the
strings of the declarative `EmailShape` decomposition. -/
theorem emailRegexAccepts_iff (l : List Char) :
    emailRegexAccepts l = true ↔ EmailShape l := by
  constructor
  · intro h
    unfold emailRegexAccepts at h
    simp only [List.any_eq_true, List.mem_range, Bool.and_eq_true,
      decide_eq_true_eq, beq_iff_eq, List.all_eq_true] at h
    obtain ⟨i, hi, j, hj, ⟨⟨⟨⟨⟨⟨⟨h1, h2⟩, h3⟩, h4⟩, h5⟩, h6⟩, h7⟩, h8⟩⟩ := h
    have hjlen : j < l.length := by omega
    have hat : l[i] = '@' := by
      rw [List.getD_eq_getElem l ' ' hi] at h4; exact h4
    have hdot : l[j] = '.' := by
      rw [List.getD_eq_getElem l ' ' hjlen] at h5; exact h5
    have e2 : l.drop i = '@' :: l.drop (i + 1) := by
      rw [List.drop_eq_getElem_cons hi, hat]
    have e5 : l.drop j = '.' :: l.drop (j + 1) := by
      rw [List.drop_eq_getElem_cons hjlen, hdot]
    have e3 : (l.drop (i + 1)).take (j - (i + 1)) ++ '.' :: l.drop (j + 1) =
        l.drop (i + 1) := by
      conv_rhs => rw [← List.take_append_drop (j - (i + 1)) (l.drop (i + 1))]
      congr 1
      rw [List.drop_drop]
      have hji : i + 1 + (j - (i + 1)) = j := by omega
      rw [hji, e5]
    refine ⟨l.take i, (l.drop (i + 1)).take (j - (i + 1)), l.drop (j + 1),
      ?_, ?_, ?_, ?_, h6, h7, h8⟩
    · calc l = l.take i ++ l.drop i := (List.take_append_drop i l).symm
        _ = l.take i ++ '@' :: l.drop (i + 1) := by rw [e2]
        _ = l.take i ++ '@' ::
            ((l.drop (i + 1)).take (j - (i + 1)) ++ '.' :: l.drop (j + 1)) := by
          rw [e3]
    · apply List.ne_nil_of_length_pos
      rw [List.length_take]
      omega
    · apply List.ne_nil_of_length_pos
      rw [List.length_take, List.length_drop]
      omega
    · apply List.ne_nil_of_length_pos
      rw [List.length_drop]
      omega
  · rintro ⟨A, B, C, hl, hA, hB, hC, pA, pB, pC⟩
    have hA1 : 0 < A.length := List.length_pos.2 hA
    have hB1 : 0 < B.length := List.length_pos.2 hB
    have hC1 : 0 < C.length := List.length_pos.2 hC
    have hlen : l.length = A.length + 1 + B.length + 1 + C.length := by
      subst hl
      simp
      omega
    have hdropA : l.drop (A.length + 1) = B ++ '.' :: C := by
      rw [hl, show A ++ '@' :: (B ++ '.' :: C) = (A ++ ['@']) ++ (B ++ '.' :: C) by simp]
      exact List.drop_left' (by simp)
    have hdropD : l.drop (A.length + 1 + B.length + 1) = C := by
      rw [hl, show A ++ '@' :: (B ++ '.' :: C) = ((A ++ '@' :: B) ++ ['.']) ++ C by simp]
      refine List.drop_left' (by simp; omega)
    have htakeA : l.take A.length = A := by
      rw [hl]
      exact List.take_left' rfl
    unfold emailRegexAccepts
    simp only [List.any_eq_true, List.mem_range, Bool.and_eq_true,
      decide_eq_true_eq, beq_iff_eq, List.all_eq_true]
    refine ⟨A.length, by omega, A.length + 1 + B.length,
      by omega, ⟨⟨⟨⟨⟨⟨⟨by omega, by omega⟩, by omega⟩, ?_⟩, ?_⟩, ?_⟩, ?_⟩, ?_⟩⟩
    · -- l.getD A.length ' ' = '@'
      rw [hl, List.getD_append_right A _ ' ' A.length le_rfl]
      simp
    · -- l.getD (A.length + 1 + B.length) ' ' = '.'
      rw [hl, show A ++ '@' :: (B ++ '.' :: C) = (A ++ '@' :: B) ++ '.' :: C by simp,
        List.getD_append_right (A ++ '@' :: B) _ ' ' _ (by simp; omega)]
      simp [show A.length + 1 + B.length - (A.length + (B.length + 1)) = 0 by omega]
    · intro c hc
      rw [htakeA] at hc
      exact pA c hc
    · intro c hc
      rw [hdropA, show A.length + 1 + B.length - (A.length + 1) = B.length by omega,
        List.take_left' rfl] at hc
      exact pB c hc
    · intro c hc
      rw [hdropD] at hc
      exact pC c hc

/-- C6: `validateField` on the email field returns "Email is required"
exactly when the trimmed value is empty; otherwise it returns "Email
address is incomplete" exactly when the raw value does not decompose
as one or more characters that are neither whitespace nor `@`, then
`@`, then one or more such characters, then `.`, then one or more such
characters; otherwise it returns no error. -/
theorem validateField_email_characterization (pw v : String) :
    (validateField pw .email v = some "Email is required" ↔ jsTrim v = "") ∧
    (validateField pw .email v = some "Email address is incomplete" ↔
      jsTrim v ≠ "" ∧ ¬ EmailShape v.data) ∧
    (validateField pw .email v = none ↔ jsTrim v ≠ "" ∧ EmailShape v.data) := by
  by_cases ht : jsTrim v = ""
  · simp [validateField, ht]
  · by_cases hr : emailRegexAccepts v.data
    · have hshape := (emailRegexAccepts_iff v.data).1 hr
      simp [validateField, ht, hr, hshape]
    · have hshape : ¬ EmailShape v.data := fun hs =>
        hr ((emailRegexAccepts_iff v.data).2 hs)
      simp [validateField, ht, hr, hshape]
